import Mathlib

/-!
# Productivity tracker: shallow embedding and verification

A shallow embedding of the core of the productivity-tracker app
(the revision with inline editing: `ProductivityTracker` in the unnamed
source file): the activity store, the timer controller and the edit
engine.  Timestamps are rationals (milliseconds since the epoch, the
numeric content of the ISO strings the code stores); JavaScript numbers
are modelled as rationals, and `toFixed(n)` as decimal rounding.  DOM
rendering, audio synthesis, title flashing and CSV download are external
collaborators and are not part of the store's state; the notification
port (`timerExpired`) is modelled as an invocation counter.

Division by zero: the source divides by `estimatedMinutes`, which
JavaScript turns into `Infinity` when that field is `0`; rationals have
no infinity, so `x / 0 = 0` here.  No theorem below depends on the value
computed at a zero divisor: statements about `difference` carry the
hypothesis `estimatedMinutes ≠ 0`.
-/

namespace Tracker

/-- Activity status: the two values the status select offers. -/
inductive Status where
  | inProgress
  | completed
deriving DecidableEq, Repr

/-- One activity record, as created by `startActivity`.  `startTime` is
always a timestamp (the code stores a non-empty ISO string and the edit
engine refuses to clear it); `endTime`, `actualMinutes` and `difference`
start as `null`.  `remainingSeconds` is set on the record right after
creation. -/
structure Activity where
  id : Int
  name : String
  startTime : ℚ
  endTime : Option ℚ
  estimatedMinutes : ℚ
  actualMinutes : Option ℚ
  status : Status
  difference : Option ℚ
  remainingSeconds : Int
deriving DecidableEq, Repr

/-- The tracker's mutable state: the ordered record list (most recent
first), the active pointer (the id of the record `this.activeActivity`
aliases; lookups and updates through it use first-match-by-id, exactly
as the code's `find`/`findIndex` calls do), whether the tick interval is
installed, and how many times the notification port has fired. -/
structure State where
  activities : List Activity
  activeId : Option Int
  timerOn : Bool
  notifCount : Nat
deriving DecidableEq, Repr

/-- The constructor's state: empty list, no active activity, no timer. -/
def initState : State :=
  { activities := [], activeId := none, timerOn := false, notifCount := 0 }

/-- `this.activities.find(a => a.id === id)`: first record with the id. -/
def findById : List Activity → Int → Option Activity
  | [], _ => none
  | a :: rest, i => if a.id = i then some a else findById rest i

/-- Replace the first record carrying the id (the effect of mutating the
object `find`/`findIndex` locates). -/
def updateById : List Activity → Int → (Activity → Activity) → List Activity
  | [], _, _ => []
  | a :: rest, i, f => if a.id = i then f a :: rest else a :: updateById rest i f

/-- Round to the nearest integer, ties toward `+∞` (the tie behaviour of
`toFixed`, which picks the larger of two equally close candidates):
`⌊q + 1/2⌋`. -/
def roundQ (q : ℚ) : ℤ := ⌊q + 1 / 2⌋

/-- `toFixed(2)` on a real value: round to two decimal places. -/
def round2 (q : ℚ) : ℚ := (roundQ (q * 100) : ℚ) / 100

/-- `toFixed(1)` on a real value: round to one decimal place. -/
def round1 (q : ℚ) : ℚ := (roundQ (q * 10) : ℚ) / 10

/-- `startActivity`.  `durationEstimate` is the result of `parseInt` on
the form field (`none` = `NaN`); `now` is the clock reading used both
for `Date.now()` (the id) and for the creation timestamp.  Refuses while
an activity is active; refuses a `NaN` or `< 1` estimate.  On success
the new record is in progress with `remainingSeconds =
estimatedMinutes*60`, is unshifted at the head of the list, becomes the
active activity, and the timer starts.  The name is taken from the form
as-is: the function itself performs no validation on it. -/
def startActivity (s : State) (activityName : String)
    (durationEstimate : Option Int) (now : Int) : Except Unit State :=
  if s.activeId.isSome then .error () else
  match durationEstimate with
  | none => .error ()
  | some d =>
    if d < 1 then .error () else
    let activity : Activity :=
      { id := now
        name := activityName
        startTime := (now : ℚ)
        endTime := none
        estimatedMinutes := (d : ℚ)
        actualMinutes := none
        status := .inProgress
        difference := none
        remainingSeconds := d * 60 }
    .ok { s with
          activities := activity :: s.activities
          activeId := some now
          timerOn := true }

/-- `clearTimer`: drop the interval handle if one is installed. -/
def clearTimer (s : State) : State :=
  if s.timerOn then { s with timerOn := false } else s

/-- `completeActivity`, called with the current clock reading `now`.
Silently returns when nothing is active; otherwise stops the timer,
stamps `endTime`, computes `actualMinutes = (endTime-startTime)/60000`
to two decimals and `difference =
(actualMinutes-estimatedMinutes)/estimatedMinutes*100` to one decimal,
marks the record completed, writes it back at its position in the list
(`findIndex` by id) and clears the active pointer. -/
def completeActivity (s : State) (now : ℚ) : Except Unit State :=
  match s.activeId with
  | none => .error ()
  | some aid =>
    match findById s.activities aid with
    | none =>
      -- the active object is not in the list: the code mutates the
      -- detached object and leaves the list alone (findIndex = -1)
      .ok { s with timerOn := false, activeId := none }
    | some a =>
      let actual := round2 ((now - a.startTime) / 60000)
      let diff := round1 ((actual - a.estimatedMinutes) / a.estimatedMinutes * 100)
      let a' : Activity :=
        { a with
          endTime := some now
          actualMinutes := some actual
          status := .completed
          difference := some diff }
      .ok { s with
            timerOn := false
            activities := updateById s.activities aid (fun _ => a')
            activeId := none }

/-- One firing of the interval callback installed by `startTimer`.  When
no interval is installed nothing fires.  The callback bails out
(clearing the timer) if the activity is gone, otherwise decrements
`remainingSeconds` and, exactly when the decremented value `=== 0`,
calls `timerExpired`, which invokes the notification port. -/
def tick (s : State) : State :=
  if s.timerOn = false then s else
  match s.activeId with
  | none => { s with timerOn := false }
  | some aid =>
    match findById s.activities aid with
    | none => s
    | some a =>
      let s' := { s with
        activities :=
          updateById s.activities aid
            (fun b => { b with remainingSeconds := b.remainingSeconds - 1 }) }
      if a.remainingSeconds - 1 = 0
      then { s' with notifCount := s'.notifCount + 1 }
      else s'

/-- `deleteActivity`: a silent no-op on an unknown id, refused (alert)
on the active activity's id, otherwise — once the user confirms —
removes every record with the id from the list. -/
def deleteActivity (s : State) (activityId : Int) (confirmed : Bool) :
    Except Unit State :=
  match findById s.activities activityId with
  | none => .error ()
  | some _ =>
    if s.activeId = some activityId then .error ()
    else if confirmed then
      .ok { s with
            activities := s.activities.filter (fun a => a.id ≠ activityId) }
    else .ok s

/-- A field-level inline edit, with the value the input widget yields:
for the two minute fields the `parseFloat` result (`none` = `NaN`), for
the two time fields the parsed timestamp (`none` = the input left
empty), for status one of the two select options. -/
inductive Edit where
  | name (v : String)
  | startTime (v : Option ℚ)
  | endTime (v : Option ℚ)
  | estimatedMinutes (v : Option ℚ)
  | actualMinutes (v : Option ℚ)
  | status (v : Status)
deriving DecidableEq, Repr

/-- Validate the edit and write the field (`activity[field] = newValue`
in `saveEdit`).  `error` is the alert-and-return path, which leaves the
record untouched. -/
def applyField (a : Activity) : Edit → Except Unit Activity
  | .name v =>
    let t := v.trim
    if t = "" then .error () else .ok { a with name := t }
  | .startTime v =>
    match v with
    | none => .error ()
    | some t => .ok { a with startTime := t }
  | .endTime v => .ok { a with endTime := v }
  | .estimatedMinutes v =>
    match v with
    | none => .error ()
    | some x => if x < 0 then .error () else .ok { a with estimatedMinutes := x }
  | .actualMinutes v =>
    match v with
    | none => .error ()
    | some x => if x < 0 then .error () else .ok { a with actualMinutes := some x }
  | .status v => .ok { a with status := v }

/-- The derived-field recomputation block of `saveEdit`, run on the
record after the field write.  A time edit recomputes `actualMinutes`
(and, when `estimatedMinutes` is truthy, `difference`) provided both
times are present; an edit of one minute field recomputes `difference`
alone when the *other* minute field is truthy.  JavaScript truthiness
of a nullable number makes both `null` and `0` falsy, so the guards
below are `≠ 0` on an always-present number and `some`-and-`≠ 0` on a
nullable one. -/
def recompute (e : Edit) (a : Activity) : Activity :=
  match e, a.endTime with
  | .startTime _, some endT | .endTime _, some endT =>
    let actual := round2 ((endT - a.startTime) / 60000)
    let a' := { a with actualMinutes := some actual }
    if a'.estimatedMinutes ≠ 0 then
      let d := round1 ((actual - a'.estimatedMinutes) / a'.estimatedMinutes * 100)
      { a' with difference := some d }
    else a'
  | .estimatedMinutes _, _ =>
    match a.actualMinutes with
    | some actual =>
      if actual ≠ 0 then
        let d := round1 ((actual - a.estimatedMinutes) / a.estimatedMinutes * 100)
        { a with difference := some d }
      else a
    | none => a
  | .actualMinutes _, _ =>
    if a.estimatedMinutes ≠ 0 then
      match a.actualMinutes with
      | some actual =>
        let d := round1 ((actual - a.estimatedMinutes) / a.estimatedMinutes * 100)
        { a with difference := some d }
      | none => a
    else a
  | _, _ => a

/-- `saveEdit` inside `makeEditable` (the spec's `applyEdit`): look the
record up by id (first match), validate and write the field, recompute
the derived fields, and — when the edit set `status = completed` on the
active activity — stop the timer and clear the active pointer. -/
def saveEdit (s : State) (activityId : Int) (e : Edit) : Except Unit State :=
  match findById s.activities activityId with
  | none => .error ()
  | some a =>
    match applyField a e with
    | .error () => .error ()
    | .ok a1 =>
      let a2 := recompute e a1
      let s' := { s with activities := updateById s.activities activityId (fun _ => a2) }
      if e = .status .completed ∧ s.activeId = some activityId then
        .ok { s' with timerOn := false, activeId := none }
      else
        .ok s'

/-- The shape `this.activities` can take right after
`loadFromLocalStorage`: either an array of records or some other
JSON value (`JSON.parse` succeeds on plenty of non-arrays). -/
inductive LoadedValue where
  | arr (records : List Activity)
  | nonArray
deriving DecidableEq, Repr

/-- `loadFromLocalStorage`, over the outcome of the external
`localStorage.getItem` + `JSON.parse` pair: `none` = no/empty stored
blob (the field keeps its constructor value `[]`), `some (.error ())` =
`JSON.parse` threw (caught: reset to `[]`), `some (.ok v)` = the parsed
value, assigned to `this.activities` with no shape check at all. -/
def loadFromLocalStorage : Option (Except Unit LoadedValue) → LoadedValue
  | none => .arr []
  | some (.error ()) => .arr []
  | some (.ok v) => v

/-- Does the loaded value have the array shape the rest of the code
assumes? -/
def isRecordList : LoadedValue → Bool
  | .arr _ => true
  | .nonArray => false

/-- Number of records currently in progress. -/
def inProgressCount (xs : List Activity) : Nat :=
  (xs.filter (fun a => a.status = .inProgress)).length

/-- The active record's `remainingSeconds`, read through the active
pointer. -/
def activeRemaining (s : State) : Option Int :=
  (s.activeId.bind (findById s.activities)).map (fun a => a.remainingSeconds)

/-- One externally-triggered mutation of the store: a successful user
operation, a tick, or a timer stop.  Failed operations (the `alert` /
early-`return` paths) leave the state unchanged and are not steps. -/
inductive Step : State → State → Prop
  | start (s s' : State) (nm : String) (d : Option Int) (now : Int)
      (h : startActivity s nm d now = .ok s') : Step s s'
  | complete (s s' : State) (now : ℚ)
      (h : completeActivity s now = .ok s') : Step s s'
  | del (s s' : State) (aid : Int) (c : Bool)
      (h : deleteActivity s aid c = .ok s') : Step s s'
  | edit (s s' : State) (aid : Int) (e : Edit)
      (h : saveEdit s aid e = .ok s') : Step s s'
  | tickStep (s : State) : Step s (tick s)
  | clear (s : State) : Step s (clearTimer s)

/-- States reachable from a fresh store. -/
inductive Reachable : State → Prop
  | init : Reachable initState
  | step {s s' : State} : Reachable s → Step s s' → Reachable s'

/-- A step that is not an inline edit setting `status` to `in-progress`
(the one mutation that can mint a second in-progress record). -/
inductive SafeStep : State → State → Prop
  | start (s s' : State) (nm : String) (d : Option Int) (now : Int)
      (h : startActivity s nm d now = .ok s') : SafeStep s s'
  | complete (s s' : State) (now : ℚ)
      (h : completeActivity s now = .ok s') : SafeStep s s'
  | del (s s' : State) (aid : Int) (c : Bool)
      (h : deleteActivity s aid c = .ok s') : SafeStep s s'
  | edit (s s' : State) (aid : Int) (e : Edit)
      (hne : e ≠ .status .inProgress)
      (h : saveEdit s aid e = .ok s') : SafeStep s s'
  | tickStep (s : State) : SafeStep s (tick s)
  | clear (s : State) : SafeStep s (clearTimer s)

/-- States reachable from a fresh store without ever editing a record's
status back to `in-progress`. -/
inductive ReachableSafe : State → Prop
  | init : ReachableSafe initState
  | step {s s' : State} : ReachableSafe s → SafeStep s s' → ReachableSafe s'

/-- The `estimatedMinutes` field of the record with the id, if any. -/
def estimatedMinutesOf (s : State) (i : Int) : Option ℚ :=
  (findById s.activities i).map (fun a => a.estimatedMinutes)

/-- The `actualMinutes` field of the record with the id, if any. -/
def actualMinutesOf (s : State) (i : Int) : Option (Option ℚ) :=
  (findById s.activities i).map (fun a => a.actualMinutes)

/-- The `difference` field of the record with the id, if any. -/
def differenceOf (s : State) (i : Int) : Option (Option ℚ) :=
  (findById s.activities i).map (fun a => a.difference)

/-- The `endTime` field of the record with the id, if any. -/
def endTimeOf (s : State) (i : Int) : Option (Option ℚ) :=
  (findById s.activities i).map (fun a => a.endTime)

/-- The shape every safely-reachable state has: with no active activity
nothing is in progress; with an active activity, the in-progress record
is exactly the head of the list, carries the active id, and nothing in
the tail is in progress. -/
def activeInvariant (s : State) : Prop :=
  (s.activeId = none → inProgressCount s.activities = 0) ∧
  ∀ aid, s.activeId = some aid → ∃ a rest, s.activities = a :: rest ∧ a.id = aid ∧
    a.status = .inProgress ∧ inProgressCount rest = 0

/-! ## Concrete states

Small concrete runs, used to test the claims on explicit inputs.  All of
them are reachable from `initState` by the operations above; the
reachability derivations live with the theorems below. -/

/-- A one-minute activity started at clock reading `0`. -/
def c1rec : Activity := ⟨0, "Report", 0, none, 1, none, .inProgress, none, 60⟩

/-- The store right after starting `c1rec`. -/
def c1s1 : State := ⟨[c1rec], some 0, true, 0⟩

/-- `c1rec` completed at clock reading `60000` (one minute later):
`actualMinutes = 1`, `difference = 0`. -/
def c1done : Activity := ⟨0, "Report", 0, some 60000, 1, some 1, .completed, some 0, 60⟩

/-- The store after completing the first activity. -/
def c1s2 : State := ⟨[c1done], none, false, 0⟩

/-- A second activity started at clock reading `100000`. -/
def c1recB : Activity :=
  ⟨100000, "Deploy", 100000, none, 1, none, .inProgress, none, 60⟩

/-- The store with the second activity running and the first completed. -/
def c1s3 : State := ⟨[c1recB, c1done], some 100000, true, 0⟩

/-- The first record after its status is edited back to `in-progress`. -/
def c1revived : Activity :=
  ⟨0, "Report", 0, some 60000, 1, some 1, .inProgress, some 0, 60⟩

/-- The store holding two in-progress records at once. -/
def c1s4 : State := ⟨[c1recB, c1revived], some 100000, true, 0⟩

/-- A 25-minute activity started at clock reading `0`. -/
def c2rec : Activity := ⟨0, "Report", 0, none, 25, none, .inProgress, none, 1500⟩

/-- The store right after starting `c2rec`. -/
def c2s : State := ⟨[c2rec], some 0, true, 0⟩

/-- The record `startActivity` creates when handed an empty name. -/
def c3rec : Activity := ⟨0, "", 0, none, 25, none, .inProgress, none, 1500⟩

/-- The store after starting an activity with an empty name. -/
def c3s : State := ⟨[c3rec], some 0, true, 0⟩

/-- `c1rec` completed at the very clock reading it started at:
`actualMinutes = 0`, `difference = -100`. -/
def c6rec2 : Activity :=
  ⟨0, "Report", 0, some 0, 1, some 0, .completed, some (-100), 60⟩

/-- The store after that instant completion. -/
def c6s2 : State := ⟨[c6rec2], none, false, 0⟩

/-- `c6rec2` after an inline edit sets `estimatedMinutes` to `0`. -/
def c6rec3 : Activity :=
  ⟨0, "Report", 0, some 0, 0, some 0, .completed, some (-100), 60⟩

/-- The store holding a record with `estimatedMinutes = 0`. -/
def c6s3 : State := ⟨[c6rec3], none, false, 0⟩

/-- `c1rec` after an inline edit writes `actualMinutes = 5` while the
record is still in progress (`endTime` absent, `difference` recomputed
to `400`). -/
def c7rec2 : Activity := ⟨0, "Report", 0, none, 1, some 5, .inProgress, some 400, 60⟩

/-- The store holding `c7rec2`. -/
def c7s2 : State := ⟨[c7rec2], some 0, true, 0⟩

/-- A completed 25-minute record with `actualMinutes = 30` and the
matching `difference = 20`. -/
def c10rec : Activity :=
  ⟨0, "Task", 0, some 3600000, 25, some 30, .completed, some 20, 0⟩

/-- A store holding `c10rec`, nothing active. -/
def c10s : State := ⟨[c10rec], none, false, 0⟩

/-- `c10rec` after an inline edit sets `actualMinutes` to `0`: the
difference is recomputed to `-100`. -/
def c10rec2 : Activity :=
  ⟨0, "Task", 0, some 3600000, 25, some 0, .completed, some (-100), 0⟩

/-- The store holding `c10rec2`. -/
def c10after : State := ⟨[c10rec2], none, false, 0⟩

/-! ## Lemmas about the list helpers -/

theorem findById_mem {xs : List Activity} {i : Int} {a : Activity}
    (h : findById xs i = some a) : a ∈ xs ∧ a.id = i := by
  induction xs with
  | nil => simp [findById] at h
  | cons b rest ih =>
    by_cases hb : b.id = i
    · simp [findById, hb] at h
      subst h
      exact ⟨List.mem_cons_self _ _, hb⟩
    · simp [findById, hb] at h
      obtain ⟨hmem, hid⟩ := ih h
      exact ⟨List.mem_cons_of_mem _ hmem, hid⟩

theorem findById_isSome_of_mem {xs : List Activity} {i : Int} {a : Activity}
    (ha : a ∈ xs) (hid : a.id = i) : (findById xs i).isSome := by
  induction xs with
  | nil => simp at ha
  | cons b rest ih =>
    by_cases hb : b.id = i
    · simp [findById, hb]
    · rcases List.mem_cons.mp ha with h | h
      · subst h; exact absurd hid hb
      · simpa [findById, hb] using ih h

theorem mem_updateById {xs : List Activity} {i : Int} {f : Activity → Activity}
    {b : Activity} (hb : b ∈ updateById xs i f) :
    b ∈ xs ∨ ∃ a, a ∈ xs ∧ b = f a := by
  induction xs with
  | nil => simp [updateById] at hb
  | cons c rest ih =>
    by_cases hc : c.id = i
    · simp [updateById, hc] at hb
      rcases hb with h | h
      · exact Or.inr ⟨c, List.mem_cons_self _ _, h⟩
      · exact Or.inl (List.mem_cons_of_mem _ h)
    · simp [updateById, hc] at hb
      rcases hb with h | h
      · exact Or.inl (by simp [h])
      · rcases ih h with h' | ⟨a, ha, hf⟩
        · exact Or.inl (List.mem_cons_of_mem _ h')
        · exact Or.inr ⟨a, List.mem_cons_of_mem _ ha, hf⟩

theorem updateById_length (xs : List Activity) (i : Int) (f : Activity → Activity) :
    (updateById xs i f).length = xs.length := by
  induction xs with
  | nil => rfl
  | cons c rest ih =>
    by_cases hc : c.id = i <;> simp [updateById, hc, ih]

theorem findById_updateById {xs : List Activity} {i : Int} {a : Activity}
    {f : Activity → Activity} (h : findById xs i = some a) (hid : (f a).id = i) :
    findById (updateById xs i f) i = some (f a) := by
  induction xs with
  | nil => simp [findById] at h
  | cons b rest ih =>
    by_cases hb : b.id = i
    · simp [findById, hb] at h
      subst h
      simp [updateById, hb, findById, hid]
    · simp [findById, hb] at h
      simp [updateById, hb, findById, ih h]

theorem findById_updateById_isSome {xs : List Activity} {i j : Int}
    {f : Activity → Activity} (hf : ∀ a, (f a).id = a.id) :
    (findById (updateById xs i f) j).isSome = (findById xs j).isSome := by
  induction xs with
  | nil => rfl
  | cons b rest ih =>
    by_cases hb : b.id = i
    · rw [updateById, if_pos hb]
      rw [findById, findById, hf b]
      by_cases hj : b.id = j
      · rw [if_pos hj, if_pos hj]; rfl
      · rw [if_neg hj, if_neg hj]
    · rw [updateById, if_neg hb]
      rw [findById, findById]
      by_cases hj : b.id = j
      · rw [if_pos hj, if_pos hj]
      · rw [if_neg hj, if_neg hj]; exact ih

theorem updateById_get? {xs : List Activity} {i : Int} {a : Activity}
    (f : Activity → Activity) (h : findById xs i = some a) :
    ∃ j, xs.get? j = some a ∧ (updateById xs i f).get? j = some (f a) ∧
      ∀ k, k ≠ j → (updateById xs i f).get? k = xs.get? k := by
  induction xs with
  | nil => simp [findById] at h
  | cons b rest ih =>
    by_cases hb : b.id = i
    · simp [findById, hb] at h
      subst h
      refine ⟨0, rfl, by simp [updateById, hb], ?_⟩
      intro k hk
      match k with
      | 0 => exact absurd rfl hk
      | Nat.succ m => simp [updateById, hb]
    · simp [findById, hb] at h
      obtain ⟨j, hj1, hj2, hj3⟩ := ih h
      refine ⟨j + 1, by simpa using hj1, by simpa [updateById, hb] using hj2, ?_⟩
      intro k hk
      match k with
      | 0 => simp [updateById, hb]
      | Nat.succ m =>
        have hm : m ≠ j := by omega
        simpa [updateById, hb] using hj3 m hm

theorem findById_updateById_isSome_of {xs : List Activity} {i j : Int}
    {a : Activity} {f : Activity → Activity} (h : findById xs i = some a)
    (hid : (f a).id = a.id) :
    (findById (updateById xs i f) j).isSome = (findById xs j).isSome := by
  induction xs with
  | nil => rfl
  | cons b rest ih =>
    by_cases hb : b.id = i
    · have hab : a = b := by
        rw [findById, if_pos hb] at h
        injection h.symm
      subst hab
      rw [updateById, if_pos hb, findById, findById, hid]
      by_cases hj : a.id = j
      · rw [if_pos hj, if_pos hj]; rfl
      · rw [if_neg hj, if_neg hj]
    · rw [findById, if_neg hb] at h
      rw [updateById, if_neg hb, findById, findById]
      by_cases hj : b.id = j
      · rw [if_pos hj, if_pos hj]
      · rw [if_neg hj, if_neg hj]
        exact ih h

/-- One tick on a canonical running state: the head record is the active
one; its countdown drops by one and the notification port fires exactly
when the new value is zero. -/
theorem tick_shape (c : Activity) (rest : List Activity) (aid : Int) (n : ℕ)
    (hid : c.id = aid) :
    tick ⟨c :: rest, some aid, true, n⟩ =
      ⟨{ c with remainingSeconds := c.remainingSeconds - 1 } :: rest, some aid, true,
        n + (if c.remainingSeconds - 1 = 0 then 1 else 0)⟩ := by
  have hfind : findById (c :: rest) aid = some c := by
    rw [findById, if_pos hid]
  by_cases hz : c.remainingSeconds - 1 = 0
  · simp [tick, hfind, hz, updateById, if_pos hid]
  · simp [tick, hfind, hz, updateById, if_pos hid]

/-- Iterating the tick from a freshly started activity: after `k` ticks
the countdown reads `E60 - k` and the notification port has fired
exactly once as soon as `k ≥ E60`, never before and never again. -/
theorem tick_run (c : Activity) (rest : List Activity) (aid : Int) (n0 : ℕ)
    (E60 : ℤ) (hid : c.id = aid) (hpos : 1 ≤ E60)
    (hrem : c.remainingSeconds = E60) :
    ∀ k : ℕ, tick^[k] ⟨c :: rest, some aid, true, n0⟩ =
      ⟨{ c with remainingSeconds := E60 - k } :: rest, some aid, true,
        n0 + (if E60 ≤ (k : ℤ) then 1 else 0)⟩ := by
  intro k
  induction k with
  | zero =>
    have h1 : ¬ E60 ≤ ((0 : ℕ) : ℤ) := by push_cast; omega
    rw [Function.iterate_zero, id_eq, if_neg h1]
    have h2 : { c with remainingSeconds := E60 - ((0 : ℕ) : ℤ) } = c := by
      cases c
      simp_all
    rw [h2]
    simp
  | succ m ih =>
    rw [Function.iterate_succ_apply', ih,
      tick_shape _ _ _ _
        (show ({ c with remainingSeconds := E60 - (m : ℤ) } : Activity).id = aid
          from hid)]
    have hrem2 : E60 - (m : ℤ) - 1 = E60 - ((m + 1 : ℕ) : ℤ) := by
      push_cast
      ring
    rw [show ({ c with remainingSeconds := E60 - (m : ℤ) } : Activity).remainingSeconds
        = E60 - (m : ℤ) from rfl, hrem2]
    congr 1
    by_cases hm : E60 ≤ (m : ℤ)
    · rw [if_pos hm, if_pos (show E60 ≤ ((m + 1 : ℕ) : ℤ) by push_cast; omega),
        if_neg (show ¬ E60 - ((m + 1 : ℕ) : ℤ) = 0 by push_cast; omega)]
    · rw [if_neg hm]
      by_cases hz : E60 - ((m + 1 : ℕ) : ℤ) = 0
      · rw [if_pos hz, if_pos (show E60 ≤ ((m + 1 : ℕ) : ℤ) by
          push_cast at hz ⊢; omega)]
      · rw [if_neg hz, if_neg (show ¬ E60 ≤ ((m + 1 : ℕ) : ℤ) by
          push_cast at hz ⊢; omega)]

/-! ## Lemmas about `inProgressCount` -/

theorem inProgressCount_nil : inProgressCount [] = 0 := rfl

theorem inProgressCount_cons (a : Activity) (xs : List Activity) :
    inProgressCount (a :: xs) =
      (if a.status = .inProgress then 1 else 0) + inProgressCount xs := by
  by_cases h : a.status = .inProgress <;>
    simp [inProgressCount, h, Nat.add_comm]

theorem inProgressCount_filter_le (p : Activity → Bool) (xs : List Activity) :
    inProgressCount (xs.filter p) ≤ inProgressCount xs := by
  induction xs with
  | nil => simp [inProgressCount]
  | cons a rest ih =>
    by_cases hp : p a
    · rw [List.filter_cons_of_pos hp, inProgressCount_cons, inProgressCount_cons]
      omega
    · rw [List.filter_cons_of_neg (by simpa using hp), inProgressCount_cons]
      omega

theorem inProgressCount_updateById_of_status_eq {xs : List Activity} {i : Int}
    {a c : Activity} (h : findById xs i = some a) (hc : c.status = a.status) :
    inProgressCount (updateById xs i (fun _ => c)) = inProgressCount xs := by
  induction xs with
  | nil => simp [findById] at h
  | cons b rest ih =>
    by_cases hb : b.id = i
    · simp [findById, hb] at h
      subst h
      simp [updateById, hb, inProgressCount_cons, hc]
    · simp [findById, hb] at h
      simp [updateById, hb, inProgressCount_cons, ih h]

theorem inProgressCount_updateById_le {xs : List Activity} {i : Int}
    {c : Activity} (hc : c.status ≠ .inProgress) :
    inProgressCount (updateById xs i (fun _ => c)) ≤ inProgressCount xs := by
  induction xs with
  | nil => simp [updateById]
  | cons b rest ih =>
    by_cases hb : b.id = i
    · simp [updateById, hb, inProgressCount_cons, hc]
    · simp [updateById, hb, inProgressCount_cons]
      omega

theorem inProgressCount_updateById_pointwise {xs : List Activity} {i : Int}
    {f : Activity → Activity} (hf : ∀ b, (f b).status = b.status) :
    inProgressCount (updateById xs i f) = inProgressCount xs := by
  induction xs with
  | nil => rfl
  | cons b rest ih =>
    by_cases hb : b.id = i <;>
      simp [updateById, hb, inProgressCount_cons, hf, ih]

/-! ## Lemmas about the edit stages -/

theorem applyField_id {a a1 : Activity} {e : Edit}
    (h : applyField a e = .ok a1) : a1.id = a.id := by
  cases e with
  | name v =>
    by_cases hv : v.trim = "" <;> simp [applyField, hv] at h <;> simp [← h]
  | startTime v =>
    cases v <;> simp [applyField] at h <;> simp [← h]
  | endTime v => simp [applyField] at h; simp [← h]
  | estimatedMinutes v =>
    cases v with
    | none => simp [applyField] at h
    | some x =>
      by_cases hx : x < 0 <;> simp [applyField, hx] at h <;> simp [← h]
  | actualMinutes v =>
    cases v with
    | none => simp [applyField] at h
    | some x =>
      by_cases hx : x < 0 <;> simp [applyField, hx] at h <;> simp [← h]
  | status v => simp [applyField] at h; simp [← h]

theorem recompute_id (e : Edit) (a : Activity) : (recompute e a).id = a.id := by
  cases e <;> cases he : a.endTime <;> cases ha : a.actualMinutes <;>
    simp [recompute, he, ha] <;> try (split <;> simp)

theorem recompute_status (e : Edit) (a : Activity) :
    (recompute e a).status = a.status := by
  cases e <;> cases he : a.endTime <;> cases ha : a.actualMinutes <;>
    simp [recompute, he, ha] <;> try (split <;> simp)

theorem recompute_estimatedMinutes (e : Edit) (a : Activity) :
    (recompute e a).estimatedMinutes = a.estimatedMinutes := by
  cases e <;> cases he : a.endTime <;> cases ha : a.actualMinutes <;>
    simp [recompute, he, ha] <;> try (split <;> simp)

theorem applyField_estimatedMinutes_nonneg {a a1 : Activity} {e : Edit}
    (h : applyField a e = .ok a1) (ha : 0 ≤ a.estimatedMinutes) :
    0 ≤ a1.estimatedMinutes := by
  cases e with
  | name v =>
    by_cases hv : v.trim = "" <;> simp [applyField, hv] at h <;> simp [← h, ha]
  | startTime v =>
    cases v <;> simp [applyField] at h <;> simp [← h, ha]
  | endTime v => simp [applyField] at h; simp [← h, ha]
  | estimatedMinutes v =>
    cases v with
    | none => simp [applyField] at h
    | some x =>
      by_cases hx : x < 0 <;> simp [applyField, hx] at h
      simp [← h]
      linarith
  | actualMinutes v =>
    cases v with
    | none => simp [applyField] at h
    | some x =>
      by_cases hx : x < 0 <;> simp [applyField, hx] at h <;> simp [← h, ha]
  | status v => simp [applyField] at h; simp [← h, ha]

theorem applyField_status_of_ne {a a1 : Activity} {e : Edit}
    (h : applyField a e = .ok a1) (hne : ∀ v, e ≠ .status v) :
    a1.status = a.status := by
  cases e with
  | name v =>
    by_cases hv : v.trim = "" <;> simp [applyField, hv] at h <;> simp [← h]
  | startTime v =>
    cases v <;> simp [applyField] at h <;> simp [← h]
  | endTime v => simp [applyField] at h; simp [← h]
  | estimatedMinutes v =>
    cases v with
    | none => simp [applyField] at h
    | some x =>
      by_cases hx : x < 0 <;> simp [applyField, hx] at h <;> simp [← h]
  | actualMinutes v =>
    cases v with
    | none => simp [applyField] at h
    | some x =>
      by_cases hx : x < 0 <;> simp [applyField, hx] at h <;> simp [← h]
  | status v => exact absurd rfl (hne v)

/-! ## The single-active-activity invariant -/

theorem activeInvariant_congr {s t : State} (ha : t.activities = s.activities)
    (hb : t.activeId = s.activeId) (hs : activeInvariant s) : activeInvariant t := by
  constructor
  · intro hnone
    rw [ha]
    exact hs.1 (hb ▸ hnone)
  · intro aid haid
    rw [ha]
    exact hs.2 aid (hb ▸ haid)

theorem activeInvariant_start {s s' : State} {nm : String} {d : Option Int}
    {now : Int} (hs : activeInvariant s)
    (h : startActivity s nm d now = .ok s') : activeInvariant s' := by
  by_cases hAct : s.activeId.isSome
  · simp [startActivity, hAct] at h
  · rw [Option.not_isSome_iff_eq_none] at hAct
    cases d with
    | none => simp [startActivity, hAct] at h
    | some k =>
      by_cases hk : k < 1
      · simp [startActivity, hAct, hk] at h
      · have hcnt : inProgressCount s.activities = 0 := hs.1 hAct
        simp only [startActivity, hAct, hk, Option.isSome_none, Bool.false_eq_true,
          if_false, ite_false, Except.ok.injEq] at h
        subst h
        constructor
        · intro hnone
          cases hnone
        · intro aid haid
          have hnow : now = aid := by
            have : some now = some aid := haid
            injection this
          exact ⟨_, s.activities, rfl, hnow, rfl, hcnt⟩

theorem activeInvariant_complete {s s' : State} {now : ℚ}
    (hs : activeInvariant s)
    (h : completeActivity s now = .ok s') : activeInvariant s' := by
  cases hA : s.activeId with
  | none => simp [completeActivity, hA] at h
  | some aid =>
    obtain ⟨a, rest, hact, hid, hst, hcnt⟩ := hs.2 aid hA
    have hfind : findById s.activities aid = some a := by
      rw [hact, findById, if_pos hid]
    simp only [completeActivity, hA, hfind, Except.ok.injEq] at h
    subst h
    constructor
    · intro _
      show inProgressCount (updateById s.activities aid _) = 0
      rw [hact, updateById, if_pos hid, inProgressCount_cons]
      simpa using hcnt
    · intro aid2 haid2
      cases haid2

theorem activeInvariant_delete {s s' : State} {aid0 : Int} {c : Bool}
    (hs : activeInvariant s)
    (h : deleteActivity s aid0 c = .ok s') : activeInvariant s' := by
  cases hf : findById s.activities aid0 with
  | none => simp [deleteActivity, hf] at h
  | some b =>
    by_cases hg : s.activeId = some aid0
    · simp [deleteActivity, hf, hg] at h
    · cases c with
      | false =>
        simp [deleteActivity, hf, hg] at h
        subst h
        exact hs
      | true =>
        simp only [deleteActivity, hf, hg, if_neg hg, if_true, ite_false,
          Except.ok.injEq] at h
        subst h
        constructor
        · intro hnone
          replace hnone : s.activeId = none := hnone
          have h0 := hs.1 hnone
          show inProgressCount (s.activities.filter _) = 0
          have hle := inProgressCount_filter_le
            (fun a => decide (a.id ≠ aid0)) s.activities
          omega
        · intro aid haid
          replace haid : s.activeId = some aid := haid
          obtain ⟨a, rest, hact, hid, hst, hcnt⟩ := hs.2 aid haid
          have haneq : aid ≠ aid0 := by
            intro hEq
            exact hg (by rw [haid, hEq])
          have hkeep : (fun x => decide (x.id ≠ aid0)) a = true := by
            simp [hid, haneq]
          refine ⟨a, rest.filter (fun x => decide (x.id ≠ aid0)), ?_, hid, hst, ?_⟩
          · show s.activities.filter _ = _
            rw [hact]
            simp [List.filter_cons, hid, haneq]
          · have hle := inProgressCount_filter_le (fun x => decide (x.id ≠ aid0)) rest
            omega

theorem activeInvariant_edit {s s' : State} {aid0 : Int} {e : Edit}
    (hs : activeInvariant s) (hne : e ≠ .status .inProgress)
    (h : saveEdit s aid0 e = .ok s') : activeInvariant s' := by
  cases hf : findById s.activities aid0 with
  | none => simp [saveEdit, hf] at h
  | some a =>
    cases hap : applyField a e with
    | error u => cases u; simp [saveEdit, hf, hap] at h
    | ok a1 =>
      have ha2id : (recompute e a1).id = a.id := by
        rw [recompute_id, applyField_id hap]
      -- the status of the record written back: unchanged by a non-status
      -- edit, `completed` for the one status edit a safe step allows
      have hstatus :
          (recompute e a1).status = a.status ∨
          ((recompute e a1).status = .completed ∧ e = .status .completed) := by
        cases e with
        | status v =>
          cases v with
          | inProgress => exact absurd rfl hne
          | completed =>
            have ha1 : { a with status := Status.completed } = a1 := by
              simpa [applyField] using hap
            refine Or.inr ⟨?_, rfl⟩
            rw [recompute_status, ← ha1]
        | name v =>
          exact Or.inl (by rw [recompute_status,
            applyField_status_of_ne hap (by intro w hw; cases hw)])
        | startTime v =>
          exact Or.inl (by rw [recompute_status,
            applyField_status_of_ne hap (by intro w hw; cases hw)])
        | endTime v =>
          exact Or.inl (by rw [recompute_status,
            applyField_status_of_ne hap (by intro w hw; cases hw)])
        | estimatedMinutes v =>
          exact Or.inl (by rw [recompute_status,
            applyField_status_of_ne hap (by intro w hw; cases hw)])
        | actualMinutes v =>
          exact Or.inl (by rw [recompute_status,
            applyField_status_of_ne hap (by intro w hw; cases hw)])
      by_cases hcond : e = .status .completed ∧ s.activeId = some aid0
      · -- editing the active record's status to completed: the code's
        -- dedicated termination path clears the active pointer
        simp only [saveEdit, hf, hap, if_pos hcond, Except.ok.injEq] at h
        subst h
        obtain ⟨he, hA⟩ := hcond
        obtain ⟨b, rest, hact, hid, hst, hcnt⟩ := hs.2 aid0 hA
        have hba : a = b := by
          rw [hact, findById, if_pos hid] at hf
          injection hf.symm
        subst hba
        constructor
        · intro _
          show inProgressCount (updateById s.activities aid0 _) = 0
          rw [hact, updateById, if_pos hid, inProgressCount_cons]
          subst he
          have hcomp : (recompute (Edit.status Status.completed) a1).status =
              Status.completed := by
            rcases hstatus with h1 | h1
            · -- impossible: a status-completed edit rewrites the status
              have ha1 : { a with status := Status.completed } = a1 := by
                simpa [applyField] using hap
              rw [recompute_status, ← ha1]
            · exact h1.1
          rw [hcomp]
          simpa using hcnt
        · intro aid2 haid2
          cases haid2
      · simp only [saveEdit, hf, hap, if_neg hcond, Except.ok.injEq] at h
        subst h
        constructor
        · intro hnone
          replace hnone : s.activeId = none := hnone
          have h0 := hs.1 hnone
          show inProgressCount (updateById s.activities aid0 _) = 0
          rcases hstatus with h1 | h1
          · rw [inProgressCount_updateById_of_status_eq hf h1]
            exact h0
          · have hle := @inProgressCount_updateById_le s.activities aid0
              (recompute e a1) (by rw [h1.1]; intro hF; cases hF)
            omega
        · intro aid haid
          replace haid : s.activeId = some aid := haid
          obtain ⟨b, rest, hact, hid, hst, hcnt⟩ := hs.2 aid haid
          by_cases hbid : b.id = aid0
          · -- the edited record is the active head, so the edit cannot be a
            -- status edit at all: completed is ruled out by the branch,
            -- in-progress by safety
            have hba : a = b := by
              rw [hact, findById, if_pos hbid] at hf
              injection hf.symm
            subst hba
            have hstat : (recompute e a1).status = a.status := by
              rcases hstatus with h1 | h1
              · exact h1
              · exact absurd ⟨h1.2, by rw [haid, ← hid, hbid]⟩ hcond
            refine ⟨recompute e a1, rest, ?_, ?_, ?_, hcnt⟩
            · show updateById s.activities aid0 _ = _
              rw [hact, updateById, if_pos hbid]
            · rw [ha2id, hid]
            · rw [hstat, hst]
          · -- the edited record lives in the tail, which stays free of
            -- in-progress records
            have hfrest : findById rest aid0 = some a := by
              rw [hact, findById, if_neg hbid] at hf
              exact hf
            refine ⟨b, updateById rest aid0 (fun _ => recompute e a1),
              ?_, hid, hst, ?_⟩
            · show updateById s.activities aid0 _ = _
              rw [hact, updateById, if_neg hbid]
            · rcases hstatus with h1 | h1
              · rw [inProgressCount_updateById_of_status_eq hfrest h1]
                exact hcnt
              · have hle := @inProgressCount_updateById_le rest aid0
                  (recompute e a1) (by rw [h1.1]; intro hF; cases hF)
                omega

theorem activeInvariant_tick {s : State} (hs : activeInvariant s) :
    activeInvariant (tick s) := by
  by_cases hT : s.timerOn = false
  · rw [tick, if_pos hT]
    exact hs
  · cases hA : s.activeId with
    | none =>
      have ht : tick s = { s with timerOn := false } := by
        rw [tick, if_neg hT, hA]
      rw [ht]
      exact activeInvariant_congr (s := s) rfl rfl hs
    | some aid =>
      obtain ⟨b, rest, hact, hid, hst, hcnt⟩ := hs.2 aid hA
      have hfind : findById s.activities aid = some b := by
        rw [hact, findById, if_pos hid]
      have key : ∀ (t : Bool) (n : Nat),
          activeInvariant
            { activities :=
                updateById s.activities aid
                  (fun x => { x with remainingSeconds := x.remainingSeconds - 1 })
              activeId := some aid
              timerOn := t
              notifCount := n } := by
        intro t n
        constructor
        · intro hnone
          replace hnone : some aid = none := hnone
          cases hnone
        · intro aid2 haid2
          replace haid2 : some aid = some aid2 := haid2
          have haa : aid = aid2 := by injection haid2
          subst haa
          refine ⟨{ b with remainingSeconds := b.remainingSeconds - 1 }, rest,
            ?_, by simpa using hid, by simpa using hst, hcnt⟩
          show updateById s.activities aid _ = _
          rw [hact, updateById, if_pos hid]
      by_cases hz : b.remainingSeconds - 1 = 0
      · have ht : tick s =
            { activities :=
                updateById s.activities aid
                  (fun x => { x with remainingSeconds := x.remainingSeconds - 1 })
              activeId := some aid
              timerOn := s.timerOn
              notifCount := s.notifCount + 1 } := by
          simp only [tick, if_neg hT, hA, hfind, hz, if_pos]
        rw [ht]
        exact key _ _
      · have ht : tick s =
            { activities :=
                updateById s.activities aid
                  (fun x => { x with remainingSeconds := x.remainingSeconds - 1 })
              activeId := some aid
              timerOn := s.timerOn
              notifCount := s.notifCount } := by
          simp only [tick, if_neg hT, hA, hfind, if_neg hz]
        rw [ht]
        exact key _ _

theorem activeInvariant_clearTimer {s : State} (hs : activeInvariant s) :
    activeInvariant (clearTimer s) := by
  rw [clearTimer]
  by_cases hT : s.timerOn
  · rw [if_pos hT]
    exact activeInvariant_congr (s := s) rfl rfl hs
  · rw [if_neg hT]
    exact hs

theorem activeInvariant_reachableSafe {s : State} (h : ReachableSafe s) :
    activeInvariant s := by
  induction h with
  | init => exact ⟨fun _ => rfl, fun aid haid => by cases haid⟩
  | step _ st ih =>
    cases st with
    | start _ _ _ _ h => exact activeInvariant_start ih h
    | complete _ _ h => exact activeInvariant_complete ih h
    | del _ _ _ h => exact activeInvariant_delete ih h
    | edit _ _ _ hne h => exact activeInvariant_edit ih hne h
    | tickStep => exact activeInvariant_tick ih
    | clear => exact activeInvariant_clearTimer ih

/-! ## The claims -/

/-- C1 (amended): `startActivity` refuses to create a record while an
active activity exists, and `completeActivity`, `deleteActivity`, `tick`
and every inline edit other than one that sets `status` to
`in-progress` keep the number of in-progress records at most one: every
state reachable without such a status edit has at most one in-progress
record.  (An edit that sets a completed record's status back to
`in-progress` can push the count above one; see the counterexample.) -/
theorem single_inProgress_invariant (s : State) (h : ReachableSafe s) :
    inProgressCount s.activities ≤ 1 := by
  have hi := activeInvariant_reachableSafe h
  cases hA : s.activeId with
  | none =>
    have h0 := hi.1 hA
    omega
  | some aid =>
    obtain ⟨a, rest, hact, _, hst, hcnt⟩ := hi.2 aid hA
    rw [hact, inProgressCount_cons, hst]
    simp [hcnt]

/-- Witness for C1: the invariant evaluated on the concrete two-step run
start-then-complete. -/
theorem single_inProgress_invariant_witness :
    inProgressCount c1s2.activities ≤ 1 :=
  single_inProgress_invariant c1s2
    (ReachableSafe.step
      (ReachableSafe.step ReachableSafe.init
        (SafeStep.start initState c1s1 "Report" (some 1) 0
          (by norm_num [startActivity, initState, c1s1, c1rec])))
      (SafeStep.complete c1s1 c1s2 60000
        (by norm_num [completeActivity, c1s1, c1s2, c1rec, c1done, findById,
          updateById, round2, round1, roundQ])))

/-- Counterexample to C1 as stated: the state `c1s4`, reached by
start, complete, start, and an inline edit that sets the completed
record's status back to `in-progress`, is reachable and holds two
in-progress records. -/
theorem twoInProgress_reachable :
    Reachable c1s4 ∧ inProgressCount c1s4.activities = 2 := by
  constructor
  · have r1 : Reachable c1s1 :=
      Reachable.step Reachable.init
        (Step.start initState c1s1 "Report" (some 1) 0
          (by norm_num [startActivity, initState, c1s1, c1rec]))
    have r2 : Reachable c1s2 :=
      Reachable.step r1
        (Step.complete c1s1 c1s2 60000
          (by norm_num [completeActivity, c1s1, c1s2, c1rec, c1done, findById,
            updateById, round2, round1, roundQ]))
    have r3 : Reachable c1s3 :=
      Reachable.step r2
        (Step.start c1s2 c1s3 "Deploy" (some 1) 100000
          (by norm_num [startActivity, c1s2, c1s3, c1recB, c1done]))
    exact Reachable.step r3
      (Step.edit c1s3 c1s4 0 (.status .inProgress)
        (by norm_num [saveEdit, c1s3, c1s4, c1recB, c1done, c1revived, findById,
          updateById, applyField, recompute]))
  · norm_num [inProgressCount, c1s4, c1recB, c1revived, List.filter]

/-- C9 (confirmed): `clearTimer` is idempotent, and on a state with no
timer installed it is the identity. -/
theorem clearTimer_idempotent (s : State) :
    clearTimer (clearTimer s) = clearTimer s ∧
    (s.timerOn = false → clearTimer s = s) := by
  constructor
  · by_cases hT : s.timerOn <;> simp [clearTimer, hT]
  · intro h0
    simp [clearTimer, h0]

/-- Witness for C9: both halves evaluated at the fresh store. -/
theorem clearTimer_idempotent_witness :
    clearTimer (clearTimer initState) = clearTimer initState ∧
    clearTimer initState = initState :=
  ⟨(clearTimer_idempotent initState).1, (clearTimer_idempotent initState).2 rfl⟩

/-- C2 (confirmed): with an active activity present, `completeActivity`
stamps `endTime = now`, sets `actualMinutes = (endTime-startTime)/60000`
rounded to two decimals, sets `difference =
(actualMinutes-estimatedMinutes)/estimatedMinutes*100` rounded to one
decimal, marks the record completed, clears the active pointer, and
rewrites the stored record in place: same id (the record is `a` updated
field-wise), same list position, every other entry untouched. -/
theorem completeActivity_spec (s : State) (now : ℚ) (aid : Int) (a : Activity)
    (hA : s.activeId = some aid) (hf : findById s.activities aid = some a)
    (hest : 0 < a.estimatedMinutes) :
    ∃ s', completeActivity s now = .ok s' ∧ s'.activeId = none ∧
      s'.activities.length = s.activities.length ∧
      ∃ j, s.activities.get? j = some a ∧
        s'.activities.get? j = some { a with
          endTime := some now,
          actualMinutes := some (round2 ((now - a.startTime) / 60000)),
          status := .completed,
          difference := some (round1 ((round2 ((now - a.startTime) / 60000) -
            a.estimatedMinutes) / a.estimatedMinutes * 100)) } ∧
        ∀ k, k ≠ j → s'.activities.get? k = s.activities.get? k := by
  have hc : completeActivity s now = .ok { s with
      timerOn := false
      activities := updateById s.activities aid (fun _ => { a with
        endTime := some now,
        actualMinutes := some (round2 ((now - a.startTime) / 60000)),
        status := .completed,
        difference := some (round1 ((round2 ((now - a.startTime) / 60000) -
          a.estimatedMinutes) / a.estimatedMinutes * 100)) })
      activeId := none } := by
    simp only [completeActivity, hA, hf]
  refine ⟨_, hc, rfl, updateById_length _ _ _, ?_⟩
  obtain ⟨j, h1, h2, h3⟩ := updateById_get?
    (fun _ => { a with
      endTime := some now,
      actualMinutes := some (round2 ((now - a.startTime) / 60000)),
      status := .completed,
      difference := some (round1 ((round2 ((now - a.startTime) / 60000) -
        a.estimatedMinutes) / a.estimatedMinutes * 100)) }) hf
  exact ⟨j, h1, h2, h3⟩

/-- Witness for C2: completing the 25-minute activity ten minutes in
(`now = 600000` ms): `actualMinutes = 10`, `difference = -60`. -/
theorem completeActivity_spec_witness :
    ∃ s', completeActivity c2s 600000 = .ok s' ∧ s'.activeId = none ∧
      s'.activities.length = c2s.activities.length ∧
      ∃ j, c2s.activities.get? j = some c2rec ∧
        s'.activities.get? j = some { c2rec with
          endTime := some 600000,
          actualMinutes := some (round2 ((600000 - c2rec.startTime) / 60000)),
          status := .completed,
          difference := some (round1 ((round2 ((600000 - c2rec.startTime) / 60000) -
            c2rec.estimatedMinutes) / c2rec.estimatedMinutes * 100)) } ∧
        ∀ k, k ≠ j → s'.activities.get? k = c2s.activities.get? k :=
  completeActivity_spec c2s 600000 0 c2rec rfl
    (by norm_num [findById, c2s, c2rec]) (by norm_num [c2rec])

/-- C3 (amended): `startActivity` fails, leaving the state unchanged,
whenever an active activity exists and whenever the parsed estimate is
`NaN` or below one minute; it performs no validation on the name, so an
empty name is accepted.  On success it creates an in-progress record
with `remainingSeconds = estimatedMinutes*60` and the form's name
verbatim, inserts it at the head of the list, and marks it active. -/
theorem startActivity_spec :
    (∀ (s : State) (nm : String) (d : Option Int) (now : Int),
      s.activeId.isSome → startActivity s nm d now = .error ()) ∧
    (∀ (s : State) (nm : String) (now : Int),
      startActivity s nm none now = .error ()) ∧
    (∀ (s : State) (nm : String) (k : Int) (now : Int), k < 1 →
      startActivity s nm (some k) now = .error ()) ∧
    (∀ (s : State) (nm : String) (k : Int) (now : Int),
      s.activeId = none → 1 ≤ k →
      ∃ s' r, startActivity s nm (some k) now = .ok s' ∧
        s'.activities = r :: s.activities ∧ r.status = .inProgress ∧
        r.remainingSeconds = k * 60 ∧ r.estimatedMinutes = (k : ℚ) ∧
        r.name = nm ∧ r.id = now ∧ s'.activeId = some r.id) := by
  refine ⟨?_, ?_, ?_, ?_⟩
  · intro s nm d now hAct
    simp [startActivity, hAct]
  · intro s nm now
    by_cases hAct : s.activeId.isSome <;> simp [startActivity, hAct]
  · intro s nm k now hk
    by_cases hAct : s.activeId.isSome <;> simp [startActivity, hAct, hk]
  · intro s nm k now hA hk
    have hAct : s.activeId.isSome = false := by simp [hA]
    have hk2 : ¬ k < 1 := by omega
    have hs' : startActivity s nm (some k) now = .ok { s with
        activities :=
          (⟨now, nm, (now : ℚ), none, (k : ℚ), none, .inProgress, none,
            k * 60⟩ : Activity) :: s.activities,
        activeId := some now,
        timerOn := true } := by
      simp [startActivity, hAct, hk2]
    exact ⟨_, _, hs', rfl, rfl, rfl, rfl, rfl, rfl, rfl⟩

/-- Witness for C3: the three failure modes and one success evaluated on
concrete stores. -/
theorem startActivity_spec_witness :
    startActivity c1s1 "x" (some 5) 1 = .error () ∧
    startActivity initState "x" none 1 = .error () ∧
    startActivity initState "x" (some 0) 1 = .error () ∧
    ∃ s' r, startActivity initState "Report" (some 25) 0 = .ok s' ∧
      s'.activities = r :: initState.activities ∧ r.status = .inProgress ∧
      r.remainingSeconds = 25 * 60 ∧ r.estimatedMinutes = ((25 : ℤ) : ℚ) ∧
      r.name = "Report" ∧ r.id = 0 ∧ s'.activeId = some r.id :=
  ⟨startActivity_spec.1 c1s1 "x" (some 5) 1 rfl,
   startActivity_spec.2.1 initState "x" 1,
   startActivity_spec.2.2.1 initState "x" 0 1 (by norm_num),
   startActivity_spec.2.2.2 initState "Report" 25 0 rfl (by norm_num)⟩

/-- Counterexample to C3 as stated: `startActivity` with an empty name
succeeds (the claim demands a failure), creating the record `c3rec`
whose `name` is the empty string. -/
theorem startActivity_emptyName_accepted :
    startActivity initState "" (some 25) 0 = .ok c3s ∧ c3rec.name = "" := by
  constructor
  · norm_num [startActivity, initState, c3s, c3rec]
  · rfl

/-- C8 (amended): loading treats a missing blob and a blob on which
`JSON.parse` throws as the empty collection, but a successfully parsed
value of any shape is assigned to the activities field as-is, with no
check that it is a record collection. -/
theorem load_spec :
    loadFromLocalStorage none = .arr [] ∧
    loadFromLocalStorage (some (.error ())) = .arr [] ∧
    ∀ v, loadFromLocalStorage (some (.ok v)) = v :=
  ⟨rfl, rfl, fun _ => rfl⟩

/-- Counterexample to C8 as stated: a parseable blob that is not a
record collection (`JSON.parse` returning, say, a number) is stored
as-is, not replaced by the empty collection, so loading does not always
yield a valid activity list. -/
theorem load_nonArray_not_empty :
    isRecordList (loadFromLocalStorage (some (.ok .nonArray))) = false := rfl

/-- C4 (confirmed): in a run that starts an activity with estimate `E`
and then only ticks, the countdown after `k` ticks reads `E*60 - k`
(so it keeps decrementing past zero), and the notification port has
fired exactly once when `k ≥ E*60` — the tick on which
`remainingSeconds` reaches `0` — and not at all before: the overtime
notification fires exactly once, at tick `E*60`, and never re-fires. -/
theorem overtime_fires_exactly_once (s0 s : State) (nm : String) (E : ℤ)
    (now : ℤ) (hE : 1 ≤ E) (h : startActivity s0 nm (some E) now = .ok s)
    (k : ℕ) :
    activeRemaining (tick^[k] s) = some (E * 60 - k) ∧
    (tick^[k] s).notifCount =
      s0.notifCount + (if E * 60 ≤ (k : ℤ) then 1 else 0) := by
  by_cases hAct : s0.activeId.isSome
  · simp [startActivity, hAct] at h
  · have hk2 : ¬ E < 1 := by omega
    have hAct2 : s0.activeId.isSome = false := by
      simpa using hAct
    simp only [startActivity, hAct2, hk2, Bool.false_eq_true, if_false,
      ite_false, Except.ok.injEq] at h
    subst h
    have hrun := tick_run
      (⟨now, nm, (now : ℚ), none, (E : ℚ), none, .inProgress, none, E * 60⟩ :
        Activity)
      s0.activities now s0.notifCount (E * 60) rfl (by omega) rfl k
    rw [show ({ s0 with
        activities :=
          (⟨now, nm, (now : ℚ), none, (E : ℚ), none, .inProgress, none,
            E * 60⟩ : Activity) :: s0.activities,
        activeId := some now,
        timerOn := true } : State) =
      ⟨(⟨now, nm, (now : ℚ), none, (E : ℚ), none, .inProgress, none,
          E * 60⟩ : Activity) :: s0.activities, some now, true,
        s0.notifCount⟩ from rfl, hrun]
    constructor
    · simp [activeRemaining, findById]
    · rfl

/-- Witness for C4: a one-minute activity; after 61 ticks the countdown
reads `-1` and the notification port has fired exactly once. -/
theorem overtime_fires_exactly_once_witness :
    activeRemaining (tick^[61] c1s1) = some ((1 : ℤ) * 60 - ((61 : ℕ) : ℤ)) ∧
    (tick^[61] c1s1).notifCount =
      initState.notifCount + (if (1 : ℤ) * 60 ≤ ((61 : ℕ) : ℤ) then 1 else 0) :=
  overtime_fires_exactly_once initState c1s1 "Report" 1 0 (by norm_num)
    (by norm_num [startActivity, initState, c1s1, c1rec]) 61

/-- C5 (confirmed): in every reachable state, whenever the active
pointer holds an id, a record with that id is present in the ordered
activity list — the pointer is never a record absent from the list. -/
theorem active_in_list (s : State) (h : Reachable s) (aid : Int)
    (hA : s.activeId = some aid) : (findById s.activities aid).isSome = true := by
  suffices H : ∀ t, Reachable t → ∀ b, t.activeId = some b →
      (findById t.activities b).isSome = true from H s h aid hA
  intro t ht
  induction ht with
  | init =>
    intro b hb
    cases hb
  | step hr st ih =>
    cases st with
    | start _ _ _ _ h =>
      rename_i u u' nm d now
      intro b hb
      by_cases hAct : u.activeId.isSome
      · simp [startActivity, hAct] at h
      · cases d with
        | none => simp [startActivity, hAct] at h
        | some k =>
          by_cases hk : k < 1
          · simp [startActivity, hAct, hk] at h
          · have hAct2 : u.activeId.isSome = false := by simpa using hAct
            simp only [startActivity, hAct2, hk, Bool.false_eq_true, if_false,
              ite_false, Except.ok.injEq] at h
            subst h
            replace hb : some now = some b := hb
            have hnb : now = b := by injection hb
            show (findById (_ :: u.activities) b).isSome = true
            rw [findById]
            rw [if_pos (show now = b from hnb)]
            rfl
    | complete _ _ h =>
      rename_i u u' now
      intro b hb
      cases hA0 : u.activeId with
      | none => simp [completeActivity, hA0] at h
      | some aid0 =>
        cases hf0 : findById u.activities aid0 with
        | none =>
          simp only [completeActivity, hA0, hf0, Except.ok.injEq] at h
          subst h
          cases hb
        | some a =>
          simp only [completeActivity, hA0, hf0, Except.ok.injEq] at h
          subst h
          cases hb
    | del _ _ _ h =>
      rename_i u u' aid0 c
      intro b hb
      cases hf0 : findById u.activities aid0 with
      | none => simp [deleteActivity, hf0] at h
      | some a0 =>
        by_cases hg : u.activeId = some aid0
        · simp [deleteActivity, hf0, hg] at h
        · cases c with
          | false =>
            simp [deleteActivity, hf0, hg] at h
            subst h
            exact ih b hb
          | true =>
            simp only [deleteActivity, hf0, hg, if_neg hg, if_true,
              ite_false, Except.ok.injEq] at h
            subst h
            replace hb : u.activeId = some b := hb
            have hprev := ih b hb
            rw [Option.isSome_iff_exists] at hprev
            obtain ⟨a, hfa⟩ := hprev
            obtain ⟨hmem, hid⟩ := findById_mem hfa
            have hbneq : b ≠ aid0 := by
              intro hEq
              exact hg (by rw [hb, hEq])
            show (findById (u.activities.filter _) b).isSome = true
            exact findById_isSome_of_mem
              (List.mem_filter.mpr ⟨hmem, by simp [hid, hbneq]⟩) hid
    | edit _ _ _ h =>
      rename_i u u' aid0 e
      intro b hb
      cases hf0 : findById u.activities aid0 with
      | none => simp [saveEdit, hf0] at h
      | some a =>
        cases hap : applyField a e with
        | error v => cases v; simp [saveEdit, hf0, hap] at h
        | ok a1 =>
          have ha2id : ((fun _ => recompute e a1) a).id = a.id := by
            show (recompute e a1).id = a.id
            rw [recompute_id, applyField_id hap]
          by_cases hcond : e = .status .completed ∧ u.activeId = some aid0
          · simp only [saveEdit, hf0, hap, if_pos hcond, Except.ok.injEq] at h
            subst h
            cases hb
          · simp only [saveEdit, hf0, hap, if_neg hcond, Except.ok.injEq] at h
            subst h
            replace hb : u.activeId = some b := hb
            show (findById (updateById u.activities aid0 _) b).isSome = true
            rw [findById_updateById_isSome_of hf0 ha2id]
            exact ih b hb
    | tickStep =>
      rename_i u
      intro b hb
      by_cases hT : u.timerOn = false
      · rw [tick, if_pos hT] at hb ⊢
        exact ih b hb
      · cases hA0 : u.activeId with
        | none =>
          have ht : tick u = { u with timerOn := false } := by
            rw [tick, if_neg hT, hA0]
          rw [ht] at hb
          replace hb : u.activeId = some b := hb
          rw [hA0] at hb
          cases hb
        | some aid0 =>
          cases hf0 : findById u.activities aid0 with
          | none =>
            have ht : tick u = u := by
              simp only [tick, if_neg hT, hA0, hf0]
            rw [ht] at hb ⊢
            exact ih b hb
          | some a =>
            have hid1 : ((fun x : Activity => { x with
                remainingSeconds := x.remainingSeconds - 1 }) a).id = a.id := rfl
            by_cases hz : a.remainingSeconds - 1 = 0
            · have ht : tick u = { u with
                  activities := updateById u.activities aid0
                    (fun x => { x with
                      remainingSeconds := x.remainingSeconds - 1 }),
                  notifCount := u.notifCount + 1 } := by
                simp only [tick, if_neg hT, hA0, hf0, hz, if_pos]
              rw [ht] at hb ⊢
              replace hb : u.activeId = some b := hb
              show (findById (updateById u.activities aid0 _) b).isSome = true
              rw [findById_updateById_isSome_of hf0 hid1]
              exact ih b hb
            · have ht : tick u = { u with
                  activities := updateById u.activities aid0
                    (fun x => { x with
                      remainingSeconds := x.remainingSeconds - 1 }) } := by
                simp only [tick, if_neg hT, hA0, hf0, hz, if_neg,
                  not_false_eq_true]
              rw [ht] at hb ⊢
              replace hb : u.activeId = some b := hb
              show (findById (updateById u.activities aid0 _) b).isSome = true
              rw [findById_updateById_isSome_of hf0 hid1]
              exact ih b hb
    | clear =>
      rename_i u
      intro b hb
      rw [clearTimer] at hb ⊢
      by_cases hT : u.timerOn
      · rw [if_pos hT] at hb ⊢
        exact ih b hb
      · rw [if_neg hT] at hb ⊢
        exact ih b hb

/-- Witness for C5: the pointer of the freshly started store `c1s1`
points at a record that is in the list. -/
theorem active_in_list_witness : (findById c1s1.activities 0).isSome = true :=
  active_in_list c1s1
    (Reachable.step Reachable.init
      (Step.start initState c1s1 "Report" (some 1) 0
        (by norm_num [startActivity, initState, c1s1, c1rec])))
    0 rfl

/-- C6 (amended): `startActivity` rejects any estimate below one minute,
but the inline edit of `estimatedMinutes` rejects only negative values
— `0` passes its `≥ 0` validation — so the invariant every reachable
state satisfies is `estimatedMinutes ≥ 0` on every record, not `> 0`. -/
theorem estimatedMinutes_nonneg_invariant (s : State) (h : Reachable s) :
    ∀ a, a ∈ s.activities → 0 ≤ a.estimatedMinutes := by
  suffices H : ∀ t, Reachable t → ∀ a, a ∈ t.activities →
      0 ≤ a.estimatedMinutes from H s h
  intro t ht
  induction ht with
  | init =>
    intro a ha
    cases ha
  | step hr st ih =>
    cases st with
    | start _ _ _ _ h =>
      rename_i u u' nm d now
      intro a ha
      by_cases hAct : u.activeId.isSome
      · simp [startActivity, hAct] at h
      · cases d with
        | none => simp [startActivity, hAct] at h
        | some k =>
          by_cases hk : k < 1
          · simp [startActivity, hAct, hk] at h
          · have hAct2 : u.activeId.isSome = false := by simpa using hAct
            simp only [startActivity, hAct2, hk, Bool.false_eq_true, if_false,
              ite_false, Except.ok.injEq] at h
            subst h
            rcases List.mem_cons.mp ha with hh | hh
            · subst hh
              show (0 : ℚ) ≤ (k : ℚ)
              exact_mod_cast by omega
            · exact ih a hh
    | complete _ _ h =>
      rename_i u u' now
      intro a ha
      cases hA0 : u.activeId with
      | none => simp [completeActivity, hA0] at h
      | some aid0 =>
        cases hf0 : findById u.activities aid0 with
        | none =>
          simp only [completeActivity, hA0, hf0, Except.ok.injEq] at h
          subst h
          exact ih a ha
        | some b =>
          simp only [completeActivity, hA0, hf0, Except.ok.injEq] at h
          subst h
          rcases mem_updateById ha with hh | ⟨c, hc, hfc⟩
          · exact ih a hh
          · subst hfc
            show (0 : ℚ) ≤ b.estimatedMinutes
            exact ih b (findById_mem hf0).1
    | del _ _ _ h =>
      rename_i u u' aid0 c
      intro a ha
      cases hf0 : findById u.activities aid0 with
      | none => simp [deleteActivity, hf0] at h
      | some a0 =>
        by_cases hg : u.activeId = some aid0
        · simp [deleteActivity, hf0, hg] at h
        · cases c with
          | false =>
            simp [deleteActivity, hf0, hg] at h
            subst h
            exact ih a ha
          | true =>
            simp only [deleteActivity, hf0, hg, if_neg hg, if_true,
              ite_false, Except.ok.injEq] at h
            subst h
            exact ih a (List.mem_of_mem_filter ha)
    | edit _ _ _ h =>
      rename_i u u' aid0 e
      intro a ha
      cases hf0 : findById u.activities aid0 with
      | none => simp [saveEdit, hf0] at h
      | some b =>
        cases hap : applyField b e with
        | error v => cases v; simp [saveEdit, hf0, hap] at h
        | ok b1 =>
          have hb1 : 0 ≤ (recompute e b1).estimatedMinutes := by
            rw [recompute_estimatedMinutes]
            exact applyField_estimatedMinutes_nonneg hap
              (ih b (findById_mem hf0).1)
          by_cases hcond : e = .status .completed ∧ u.activeId = some aid0
          · simp only [saveEdit, hf0, hap, if_pos hcond, Except.ok.injEq] at h
            subst h
            rcases mem_updateById ha with hh | ⟨c, hc, hfc⟩
            · exact ih a hh
            · subst hfc
              exact hb1
          · simp only [saveEdit, hf0, hap, if_neg hcond, Except.ok.injEq] at h
            subst h
            rcases mem_updateById ha with hh | ⟨c, hc, hfc⟩
            · exact ih a hh
            · subst hfc
              exact hb1
    | tickStep =>
      rename_i u
      intro a ha
      by_cases hT : u.timerOn = false
      · rw [tick, if_pos hT] at ha
        exact ih a ha
      · cases hA0 : u.activeId with
        | none =>
          have ht : tick u = { u with timerOn := false } := by
            rw [tick, if_neg hT, hA0]
          rw [ht] at ha
          exact ih a ha
        | some aid0 =>
          cases hf0 : findById u.activities aid0 with
          | none =>
            have ht : tick u = u := by
              simp only [tick, if_neg hT, hA0, hf0]
            rw [ht] at ha
            exact ih a ha
          | some b =>
            by_cases hz : b.remainingSeconds - 1 = 0
            · have ht : tick u = { u with
                  activities := updateById u.activities aid0
                    (fun x => { x with
                      remainingSeconds := x.remainingSeconds - 1 }),
                  notifCount := u.notifCount + 1 } := by
                simp only [tick, if_neg hT, hA0, hf0, hz, if_pos]
              rw [ht] at ha
              rcases mem_updateById ha with hh | ⟨c, hc, hfc⟩
              · exact ih a hh
              · subst hfc
                exact ih c hc
            · have ht : tick u = { u with
                  activities := updateById u.activities aid0
                    (fun x => { x with
                      remainingSeconds := x.remainingSeconds - 1 }) } := by
                simp only [tick, if_neg hT, hA0, hf0, hz, if_neg,
                  not_false_eq_true]
              rw [ht] at ha
              rcases mem_updateById ha with hh | ⟨c, hc, hfc⟩
              · exact ih a hh
              · subst hfc
                exact ih c hc
    | clear =>
      rename_i u
      intro a ha
      rw [clearTimer] at ha
      by_cases hT : u.timerOn
      · rw [if_pos hT] at ha
        exact ih a ha
      · rw [if_neg hT] at ha
        exact ih a ha

/-- Witness for C6: the invariant evaluated on the record of the
one-step run. -/
theorem estimatedMinutes_nonneg_invariant_witness :
    0 ≤ c1rec.estimatedMinutes :=
  estimatedMinutes_nonneg_invariant c1s1
    (Reachable.step Reachable.init
      (Step.start initState c1s1 "Report" (some 1) 0
        (by norm_num [startActivity, initState, c1s1, c1rec])))
    c1rec (by simp [c1s1])

/-- Counterexample to C6 as stated: the reachable state `c6s3` (start,
complete at the same instant, then inline-edit `estimatedMinutes` to
`0`) holds a record whose `estimatedMinutes` is `0`, not strictly
positive: the edit accepted a non-positive value. -/
theorem estimatedMinutes_zero_reachable :
    Reachable c6s3 ∧ estimatedMinutesOf c6s3 0 = some 0 := by
  constructor
  · have r1 : Reachable c1s1 :=
      Reachable.step Reachable.init
        (Step.start initState c1s1 "Report" (some 1) 0
          (by norm_num [startActivity, initState, c1s1, c1rec]))
    have r2 : Reachable c6s2 :=
      Reachable.step r1
        (Step.complete c1s1 c6s2 0
          (by norm_num [completeActivity, c1s1, c6s2, c1rec, c6rec2, findById,
            updateById, round2, round1, roundQ]))
    exact Reachable.step r2
      (Step.edit c6s2 c6s3 0 (.estimatedMinutes (some 0))
        (by norm_num [saveEdit, c6s2, c6s3, c6rec2, c6rec3, findById,
          updateById, applyField, recompute]))
  · norm_num [estimatedMinutesOf, c6s3, c6rec3, findById]

/-- C7 (amended): `completeActivity` and any inline edit of `startTime`
or `endTime` that leaves both times present recompute `actualMinutes`
and `difference` together from the record's current `startTime`,
`endTime` and `estimatedMinutes`; but an edit that clears `endTime`
leaves both derived fields untouched (possibly stale), and a direct
edit of `actualMinutes` can make the field present and inconsistent
while `endTime` is absent, so the claimed invariant does not hold (see
the counterexample). -/
theorem time_edit_recomputes :
    (∀ (s : State) (aid : Int) (a : Activity) (t e : ℚ),
      findById s.activities aid = some a → a.estimatedMinutes ≠ 0 →
      a.endTime = some e →
      ∃ s', saveEdit s aid (.startTime (some t)) = .ok s' ∧
        findById s'.activities aid = some { a with
          startTime := t,
          actualMinutes := some (round2 ((e - t) / 60000)),
          difference := some (round1 ((round2 ((e - t) / 60000) -
            a.estimatedMinutes) / a.estimatedMinutes * 100)) }) ∧
    (∀ (s : State) (aid : Int) (a : Activity) (t : ℚ),
      findById s.activities aid = some a → a.estimatedMinutes ≠ 0 →
      ∃ s', saveEdit s aid (.endTime (some t)) = .ok s' ∧
        findById s'.activities aid = some { a with
          endTime := some t,
          actualMinutes := some (round2 ((t - a.startTime) / 60000)),
          difference := some (round1 ((round2 ((t - a.startTime) / 60000) -
            a.estimatedMinutes) / a.estimatedMinutes * 100)) }) ∧
    (∀ (s : State) (aid : Int) (a : Activity),
      findById s.activities aid = some a →
      ∃ s', saveEdit s aid (.endTime none) = .ok s' ∧
        findById s'.activities aid = some { a with endTime := none }) ∧
    (∀ (s : State) (now : ℚ) (aid : Int) (a : Activity),
      s.activeId = some aid → findById s.activities aid = some a →
      a.estimatedMinutes ≠ 0 →
      ∃ s', completeActivity s now = .ok s' ∧
        findById s'.activities aid = some { a with
          endTime := some now,
          actualMinutes := some (round2 ((now - a.startTime) / 60000)),
          status := .completed,
          difference := some (round1 ((round2 ((now - a.startTime) / 60000) -
            a.estimatedMinutes) / a.estimatedMinutes * 100)) }) := by
  refine ⟨?_, ?_, ?_, ?_⟩
  · intro s aid a t e hf hest he
    have hid := (findById_mem hf).2
    have hrec : recompute (.startTime (some t)) { a with startTime := t } =
        { a with
          startTime := t,
          actualMinutes := some (round2 ((e - t) / 60000)),
          difference := some (round1 ((round2 ((e - t) / 60000) -
            a.estimatedMinutes) / a.estimatedMinutes * 100)) } := by
      rw [show ({ a with startTime := t } : Activity) =
          { a with startTime := t, endTime := some e } from by rw [← he]]
      simp only [recompute]
      rw [if_pos (show ({ a with startTime := t, endTime := some e } :
        Activity).estimatedMinutes ≠ 0 from hest)]
      rw [← he]
    have hsave : saveEdit s aid (.startTime (some t)) = .ok { s with
        activities := updateById s.activities aid
          (fun _ => recompute (.startTime (some t)) { a with startTime := t }) } := by
      simp only [saveEdit, hf, applyField]
      rw [if_neg (fun hc => Edit.noConfusion hc.1)]
    refine ⟨_, hsave, ?_⟩
    rw [findById_updateById hf (by rw [hrec]; exact hid)]
    rw [hrec]
  · intro s aid a t hf hest
    have hid := (findById_mem hf).2
    have hrec : recompute (.endTime (some t)) { a with endTime := some t } =
        { a with
          endTime := some t,
          actualMinutes := some (round2 ((t - a.startTime) / 60000)),
          difference := some (round1 ((round2 ((t - a.startTime) / 60000) -
            a.estimatedMinutes) / a.estimatedMinutes * 100)) } := by
      simp only [recompute]
      rw [if_pos (show ({ a with endTime := some t } :
        Activity).estimatedMinutes ≠ 0 from hest)]
    have hsave : saveEdit s aid (.endTime (some t)) = .ok { s with
        activities := updateById s.activities aid
          (fun _ => recompute (.endTime (some t)) { a with endTime := some t }) } := by
      simp only [saveEdit, hf, applyField]
      rw [if_neg (fun hc => Edit.noConfusion hc.1)]
    refine ⟨_, hsave, ?_⟩
    rw [findById_updateById hf (by rw [hrec]; exact hid)]
    rw [hrec]
  · intro s aid a hf
    have hid := (findById_mem hf).2
    have hrec : recompute (.endTime none) { a with endTime := none } =
        { a with endTime := none } := by
      simp only [recompute]
    have hsave : saveEdit s aid (.endTime none) = .ok { s with
        activities := updateById s.activities aid
          (fun _ => recompute (.endTime none) { a with endTime := none }) } := by
      simp only [saveEdit, hf, applyField]
      rw [if_neg (fun hc => Edit.noConfusion hc.1)]
    refine ⟨_, hsave, ?_⟩
    rw [findById_updateById hf (by rw [hrec]; exact hid)]
    rw [hrec]
  · intro s now aid a hA hf hest
    have hid := (findById_mem hf).2
    have hc : completeActivity s now = .ok { s with
        timerOn := false
        activities := updateById s.activities aid (fun _ => { a with
          endTime := some now,
          actualMinutes := some (round2 ((now - a.startTime) / 60000)),
          status := .completed,
          difference := some (round1 ((round2 ((now - a.startTime) / 60000) -
            a.estimatedMinutes) / a.estimatedMinutes * 100)) })
        activeId := none } := by
      simp only [completeActivity, hA, hf]
    refine ⟨_, hc, ?_⟩
    show findById (updateById s.activities aid _) aid = _
    rw [findById_updateById hf
      (show ({ a with
        endTime := some now,
        actualMinutes := some (round2 ((now - a.startTime) / 60000)),
        status := Status.completed,
        difference := some (round1 ((round2 ((now - a.startTime) / 60000) -
          a.estimatedMinutes) / a.estimatedMinutes * 100)) } : Activity).id = aid
        from hid)]

/-- Witness for C7: on concrete records, editing `startTime` to `60000`
with `endTime = 3600000` present recomputes both derived fields, as
does setting `endTime = 600000` on the running 25-minute record and
completing it at `600000`; clearing `endTime` changes that field
alone. -/
theorem time_edit_recomputes_witness :
    (∃ s', saveEdit c10s 0 (.startTime (some 60000)) = .ok s' ∧
      findById s'.activities 0 = some { c10rec with
        startTime := 60000,
        actualMinutes := some (round2 ((3600000 - 60000) / 60000)),
        difference := some (round1 ((round2 ((3600000 - 60000) / 60000) -
          c10rec.estimatedMinutes) / c10rec.estimatedMinutes * 100)) }) ∧
    (∃ s', saveEdit c2s 0 (.endTime (some 600000)) = .ok s' ∧
      findById s'.activities 0 = some { c2rec with
        endTime := some 600000,
        actualMinutes := some (round2 ((600000 - c2rec.startTime) / 60000)),
        difference := some (round1 ((round2 ((600000 - c2rec.startTime) / 60000) -
          c2rec.estimatedMinutes) / c2rec.estimatedMinutes * 100)) }) ∧
    (∃ s', saveEdit c2s 0 (.endTime none) = .ok s' ∧
      findById s'.activities 0 = some { c2rec with endTime := none }) ∧
    (∃ s', completeActivity c2s 600000 = .ok s' ∧
      findById s'.activities 0 = some { c2rec with
        endTime := some 600000,
        actualMinutes := some (round2 ((600000 - c2rec.startTime) / 60000)),
        status := .completed,
        difference := some (round1 ((round2 ((600000 - c2rec.startTime) / 60000) -
          c2rec.estimatedMinutes) / c2rec.estimatedMinutes * 100)) }) :=
  ⟨time_edit_recomputes.1 c10s 0 c10rec 60000 3600000
      (by norm_num [findById, c10s, c10rec]) (by norm_num [c10rec]) rfl,
   time_edit_recomputes.2.1 c2s 0 c2rec 600000
      (by norm_num [findById, c2s, c2rec]) (by norm_num [c2rec]),
   time_edit_recomputes.2.2.1 c2s 0 c2rec (by norm_num [findById, c2s, c2rec]),
   time_edit_recomputes.2.2.2 c2s 600000 0 c2rec rfl
      (by norm_num [findById, c2s, c2rec]) (by norm_num [c2rec])⟩

/-- Counterexample to C7 as stated: the reachable state `c7s2` (start,
then inline-edit `actualMinutes` to `5`) holds a record whose `endTime`
is absent while `actualMinutes` is present — the claimed invariant
fails. -/
theorem actualMinutes_present_without_endTime :
    Reachable c7s2 ∧ endTimeOf c7s2 0 = some none ∧
    actualMinutesOf c7s2 0 = some (some 5) := by
  refine ⟨?_, ?_, ?_⟩
  · exact Reachable.step
      (Reachable.step Reachable.init
        (Step.start initState c1s1 "Report" (some 1) 0
          (by norm_num [startActivity, initState, c1s1, c1rec])))
      (Step.edit c1s1 c7s2 0 (.actualMinutes (some 5))
        (by
          norm_num [saveEdit, c1s1, c7s2, c1rec, c7rec2, findById, updateById,
            applyField, recompute, round1, roundQ]
          decide))
  · norm_num [endTimeOf, c7s2, c7rec2, findById]
  · norm_num [actualMinutesOf, c7s2, c7rec2, findById]

/-- C10 (amended): an inline edit that sets `actualMinutes` to exactly
`0` passes the `≥ 0` validation, stores `0`, and — because the guard on
this branch tests the truthiness of `estimatedMinutes`, not of the new
value — recomputes `difference` to `-100` whenever `estimatedMinutes`
is non-zero.  The stale-difference behaviour the claim describes arises
on the other branch: an edit of `estimatedMinutes` while
`actualMinutes` is `0` (falsy) leaves `difference` unchanged. -/
theorem minute_edit_spec :
    (∀ (s : State) (aid : Int) (a : Activity),
      findById s.activities aid = some a → a.estimatedMinutes ≠ 0 →
      ∃ s', saveEdit s aid (.actualMinutes (some 0)) = .ok s' ∧
        findById s'.activities aid =
          some { a with actualMinutes := some 0, difference := some (-100) }) ∧
    (∀ (s : State) (aid : Int) (a : Activity) (v : ℚ),
      findById s.activities aid = some a → 0 ≤ v → a.actualMinutes = some 0 →
      ∃ s', saveEdit s aid (.estimatedMinutes (some v)) = .ok s' ∧
        findById s'.activities aid = some { a with estimatedMinutes := v }) := by
  constructor
  · intro s aid a hf hest
    have hid := (findById_mem hf).2
    have hd : round1 ((0 - ({ a with actualMinutes := some (0:ℚ) } :
        Activity).estimatedMinutes) /
        ({ a with actualMinutes := some (0:ℚ) } :
          Activity).estimatedMinutes * 100) = -100 := by
      have h1 : ((0 : ℚ) - a.estimatedMinutes) / a.estimatedMinutes * 100 =
          -100 := by
        field_simp
      show round1 (((0:ℚ) - a.estimatedMinutes) / a.estimatedMinutes * 100) = -100
      rw [h1]
      norm_num [round1, roundQ]
    have hrec : recompute (.actualMinutes (some 0))
        { a with actualMinutes := some 0 } =
        { a with actualMinutes := some 0, difference := some (-100) } := by
      simp only [recompute]
      rw [if_pos (show ({ a with actualMinutes := some (0:ℚ) } :
        Activity).estimatedMinutes ≠ 0 from hest)]
      simp only [hd]
    have happ : applyField a (.actualMinutes (some 0)) =
        .ok { a with actualMinutes := some 0 } := by
      simp [applyField]
    have hsave : saveEdit s aid (.actualMinutes (some 0)) = .ok { s with
        activities := updateById s.activities aid
          (fun _ => recompute (.actualMinutes (some 0))
            { a with actualMinutes := some 0 }) } := by
      simp only [saveEdit, hf, happ]
      rw [if_neg (fun hc => Edit.noConfusion hc.1)]
    refine ⟨_, hsave, ?_⟩
    rw [findById_updateById hf (by rw [hrec]; exact hid)]
    rw [hrec]
  · intro s aid a v hf hv h0
    have hid := (findById_mem hf).2
    have happ : applyField a (.estimatedMinutes (some v)) =
        .ok { a with estimatedMinutes := v } := by
      simp only [applyField]
      rw [if_neg (not_lt.mpr hv)]
    have hrec : recompute (.estimatedMinutes (some v))
        { a with estimatedMinutes := v } = { a with estimatedMinutes := v } := by
      simp only [recompute]
      rw [show ({ a with estimatedMinutes := v } : Activity).actualMinutes =
        some (0 : ℚ) from h0]
      simp
    have hsave : saveEdit s aid (.estimatedMinutes (some v)) = .ok { s with
        activities := updateById s.activities aid
          (fun _ => recompute (.estimatedMinutes (some v))
            { a with estimatedMinutes := v }) } := by
      simp only [saveEdit, hf, happ]
      rw [if_neg (fun hc => Edit.noConfusion hc.1)]
    refine ⟨_, hsave, ?_⟩
    rw [findById_updateById hf (by rw [hrec]; exact hid)]
    rw [hrec]

/-- Witness for C10: editing `actualMinutes` to `0` on the completed
record `c10rec` (previous `difference = 20`) recomputes `difference` to
`-100`; a follow-up edit of `estimatedMinutes` to `50` on the resulting
record leaves the `-100` untouched. -/
theorem minute_edit_spec_witness :
    (∃ s', saveEdit c10s 0 (.actualMinutes (some 0)) = .ok s' ∧
      findById s'.activities 0 =
        some { c10rec with actualMinutes := some 0, difference := some (-100) }) ∧
    (∃ s', saveEdit c10after 0 (.estimatedMinutes (some 50)) = .ok s' ∧
      findById s'.activities 0 = some { c10rec2 with estimatedMinutes := 50 }) :=
  ⟨minute_edit_spec.1 c10s 0 c10rec
      (by norm_num [findById, c10s, c10rec]) (by norm_num [c10rec]),
   minute_edit_spec.2 c10after 0 c10rec2 50
      (by norm_num [findById, c10after, c10rec2]) (by norm_num) rfl⟩

/-- Counterexample to C10 as stated: on the concrete record `c10rec`
(`estimatedMinutes = 25`, previous `difference = 20`), the inline edit
setting `actualMinutes` to `0` passes validation and stores `0`, but
`difference` does not stay at its previous value: it is recomputed to
`-100`. -/
theorem actualZero_edit_recomputes_difference :
    saveEdit c10s 0 (.actualMinutes (some 0)) = .ok c10after ∧
    differenceOf c10s 0 = some (some 20) ∧
    differenceOf c10after 0 = some (some (-100)) := by
  refine ⟨?_, ?_, ?_⟩
  · norm_num [saveEdit, c10s, c10after, c10rec, c10rec2, findById, updateById,
      applyField, recompute, round1, roundQ]
  · norm_num [differenceOf, c10s, c10rec, findById]
  · norm_num [differenceOf, c10after, c10rec2, findById]

end Tracker
